import Mathlib

/-!
# Verification of the soundvibes speech-to-text daemon

Shallow embedding of the parts of the `soundvibes` repository that the
checked claims refer to, together with theorems settling each claim.

Conventions of the embedding:
* Rust `f32` audio samples and thresholds are modelled as exact rationals
  (`ℚ`); comparisons against an RMS value `sqrt (sumsq / len)` are expressed
  equivalently without square roots (see `rmsGe`).
* Machine integers (`u32`, `u64`, `usize`) are modelled as `ℕ`; none of the
  modelled code paths can overflow their Rust widths on the inputs considered.
* Fallible Rust code returning `Result` is modelled with `Except String`,
  matching the fact that `AppError`'s `Display` output is just its message.
-/

deriving instance DecidableEq for Except

namespace Soundvibes

/-! ## src/audio.rs -/

/-- `VadConfig` from `src/audio.rs` (durations are stored in milliseconds;
`VadConfig::new` builds them from millisecond arguments, and the code reads
them back out as milliseconds / fractional seconds). -/
structure VadConfig where
  enabled : Bool
  energyThreshold : ℚ
  silenceTimeoutMs : ℕ
  chunkSizeMs : ℕ
  debug : Bool

/-- Sum of squares of the samples of a chunk (the numerator of
`rms_energy`'s mean square). -/
def sumSquares (chunk : List ℚ) : ℚ :=
  (chunk.map (fun s => s * s)).sum

/-- The comparison `rms_energy(chunk) >= thr` from `src/audio.rs`, where
`rms_energy(chunk) = sqrt (sumSquares chunk / chunk.length)`, expressed
without square roots: for `thr ≤ 0` the nonnegative RMS always dominates,
and for `0 < thr` squaring both sides is an equivalence.  (The trimming loop
only ever evaluates this on nonempty chunks.) -/
def rmsGe (chunk : List ℚ) (thr : ℚ) : Bool :=
  decide (thr ≤ 0) || decide (thr ^ 2 * (chunk.length : ℚ) ≤ sumSquares chunk)

/-- `samples_to_ms` from `src/audio.rs`: guarded against a zero sample rate,
otherwise `((samples / rate) * 1000).round`. -/
def samples_to_ms (samples rate : ℕ) : ℕ :=
  if rate = 0 then 0
  else (round ((samples : ℚ) / (rate : ℚ) * 1000)).toNat

/-- `duration_to_samples` from `src/audio.rs`:
`(sample_rate * duration.as_secs()).round()` with the duration given in
milliseconds. -/
def duration_to_samples (rate durMs : ℕ) : ℕ :=
  (round ((rate : ℚ) * ((durMs : ℚ) / 1000))).toNat

/-- The backward-walking `while end > 0` loop of `trim_trailing_silence`:
given the current `end` index and accumulated silent milliseconds, returns
the final `end` index.  `chunkSamples` is forced `≥ 1` (the source applies
`.max(1)` to it before the loop), so `end` strictly decreases on every
iteration; the loop is written with an explicit fuel argument (structural
recursion) and `fuel ≥ end` makes the fuel-exhaustion branch unreachable. -/
def trimLoop (samples : List ℚ) (rate : ℕ) (thr : ℚ)
    (chunkSamples maxSilenceMs : ℕ) : ℕ → ℕ → ℕ → ℕ
  | 0, e, _ => e
  | _ + 1, 0, _ => 0
  | fuel + 1, e + 1, silenceMs =>
    let start := e + 1 - max chunkSamples 1
    let chunk := (samples.take (e + 1)).drop start
    if rmsGe chunk thr then e + 1
    else
      let silenceMs' := silenceMs + samples_to_ms chunk.length rate
      if maxSilenceMs ≤ silenceMs' then start
      else trimLoop samples rate thr chunkSamples maxSilenceMs fuel start silenceMs'

/-- `trim_trailing_silence` from `src/audio.rs`. -/
def trim_trailing_silence (samples : List ℚ) (sampleRate : ℕ)
    (vad : VadConfig) : List ℚ :=
  if samples.isEmpty || !vad.enabled then samples
  else
    let chunkSamples := max (duration_to_samples sampleRate vad.chunkSizeMs) 1
    samples.take
      (trimLoop samples sampleRate vad.energyThreshold chunkSamples
        vad.silenceTimeoutMs samples.length samples.length 0)

/-- `cpal::SampleFormat`, restricted to the variants `src/audio.rs` matches
on (everything else falls into `other`, the `_` arm of the source match). -/
inductive SampleFormat
  | f32
  | f64
  | i8
  | i16
  | i32
  | u8
  | u16
  | u32
  | other
deriving DecidableEq, Repr

/-- `sample_format_rank` from `src/audio.rs`. -/
def sample_format_rank : SampleFormat → ℕ
  | .f32 => 6
  | .f64 => 5
  | .i32 => 4
  | .i16 => 3
  | .u16 => 2
  | .i8 => 1
  | .u8 => 0
  | _ => 0

/-- One supported input configuration as reported by the device: the
sample-rate range, channel count and sample format that
`select_stream_config` inspects. -/
structure SupportedStreamConfig where
  minRate : ℕ
  maxRate : ℕ
  channels : ℕ
  format : SampleFormat
deriving DecidableEq, Repr

/-- The fields of `cpal::StreamConfig` that `select_stream_config` sets
(`buffer_size` is always `Default` and is omitted). -/
structure StreamConfig where
  channels : ℕ
  sampleRate : ℕ
deriving DecidableEq, Repr

/-- The `for config in configs` loop of `select_stream_config` from
`src/audio.rs`, with the `best` / `best_rank` accumulator.  The source
duplicates the identical acceptance test in a `channels == 1` branch and an
`else` branch; the duplication is kept here. -/
def selectLoop (rate : ℕ) : List SupportedStreamConfig →
    Option (StreamConfig × SampleFormat) → ℕ → Option (StreamConfig × SampleFormat)
  | [], best, _ => best
  | config :: rest, best, bestRank =>
    if rate < config.minRate || config.maxRate < rate then
      selectLoop rate rest best bestRank
    else
      let candidate : StreamConfig × SampleFormat := (⟨config.channels, rate⟩, config.format)
      let rank := sample_format_rank config.format
      if config.channels = 1 then
        if best.isNone || bestRank < rank then selectLoop rate rest (some candidate) rank
        else selectLoop rate rest best bestRank
      else
        if best.isNone || bestRank < rank then selectLoop rate rest (some candidate) rank
        else selectLoop rate rest best bestRank

/-- `select_stream_config` from `src/audio.rs` (`none` corresponds to the
"no input config supports {rate} Hz" error). -/
def select_stream_config (configs : List SupportedStreamConfig) (rate : ℕ) :
    Option (StreamConfig × SampleFormat) :=
  selectLoop rate configs none 0

/-- Whether the requested rate falls inside a configuration's supported
range (the negation of the loop's `continue` condition). -/
def rateInRange (rate : ℕ) (c : SupportedStreamConfig) : Bool :=
  decide (c.minRate ≤ rate) && decide (rate ≤ c.maxRate)

/-- Largest sample-format rank occurring in a list of configurations. -/
def maxRank (l : List SupportedStreamConfig) : ℕ :=
  (l.map (fun c => sample_format_rank c.format)).foldr max 0

/-- Specification-side description of the selection used to state the
(corrected) claim about `select_stream_config`: among the configurations
whose range contains the requested rate, the first one attaining the
maximal sample-format rank is chosen — channel count plays no role. -/
def selectSpecFirstMaxRank (configs : List SupportedStreamConfig) (rate : ℕ) :
    Option (StreamConfig × SampleFormat) :=
  let eligible := configs.filter (rateInRange rate)
  (eligible.find? (fun c => sample_format_rank c.format == maxRank eligible)).map
    (fun c => (⟨c.channels, rate⟩, c.format))

/-- Running first-maximum over supported configurations: replace the
current best only on a strictly larger rank (helper for relating
`selectLoop` to `selectSpecFirstMaxRank`). -/
def firstMaxCfg (b : SupportedStreamConfig) : List SupportedStreamConfig → SupportedStreamConfig
  | [] => b
  | c :: rest =>
    if sample_format_rank b.format < sample_format_rank c.format then firstMaxCfg c rest
    else firstMaxCfg b rest

/-! ## src/ipc.rs -/

def API_VERSION : String := "1"

/-- `ControlCommand` from `src/ipc.rs`. -/
inductive ControlCommand
  | toggle (lang : Option String)
  | status
  | setLanguage (lang : String)
  | stop
deriving DecidableEq, Repr

/-- `ControlRequest` from `src/ipc.rs`. -/
structure ControlRequest where
  apiVersion : String
  command : ControlCommand
deriving DecidableEq, Repr

/-- `ControlRequest::new`. -/
def ControlRequest.new (command : ControlCommand) : ControlRequest :=
  ⟨API_VERSION, command⟩

/-- `ControlResponse` from `src/ipc.rs`. -/
structure ControlResponse where
  apiVersion : String
  ok : Bool
  state : Option String
  language : Option String
  error : Option String
  message : Option String
deriving DecidableEq, Repr

/-- `ControlResponse::ok`. -/
def ControlResponse.okResponse (state language : Option String) : ControlResponse :=
  ⟨API_VERSION, true, state, language, none, none⟩

/-- `ControlResponse::error`. -/
def ControlResponse.errorResponse (error message : String) : ControlResponse :=
  ⟨API_VERSION, false, none, none, some error, some message⟩

/-- Character-level whitespace trim (Rust's `str::trim`), implemented over
the character list so that it evaluates by kernel reduction. -/
def trimChars (s : String) : String :=
  ⟨((s.data.dropWhile Char.isWhitespace).reverse.dropWhile Char.isWhitespace).reverse⟩

/-- Accumulator for `splitWhitespace`: `acc` holds the current token's
characters in reverse. -/
def splitWhitespaceAux : List Char → List Char → List String
  | [], acc => if acc.isEmpty then [] else [⟨acc.reverse⟩]
  | c :: rest, acc =>
    if c.isWhitespace then
      if acc.isEmpty then splitWhitespaceAux rest []
      else ⟨acc.reverse⟩ :: splitWhitespaceAux rest []
    else splitWhitespaceAux rest (c :: acc)

/-- Rust's `str::split_whitespace`: split at whitespace runs, discarding
empty pieces. -/
def splitWhitespace (s : String) : List String :=
  splitWhitespaceAux s.data []

/-- The shared `for token in tokens` loop of the `toggle` and
`set-language` arms of `parse_control_request`: each remaining token must
be `lang=CODE` with a nonempty code and at most one occurrence; `who` is
the command name used in the error message. -/
def parseLangTokens (who : String) : List String → Option String → Except String (Option String)
  | [], lang => .ok lang
  | token :: rest, lang =>
    if List.isPrefixOf "lang=".data token.data then
      let value : String := ⟨token.data.drop 5⟩
      if value = "" then .error "lang value cannot be empty"
      else if lang.isSome then .error "duplicate lang token"
      else parseLangTokens who rest (some value)
    else .error ("unexpected token \x27" ++ token ++ "\x27 for " ++ who)

/-- `parse_control_request` from `src/ipc.rs`. -/
def parse_control_request (command : String) : Except String ControlRequest :=
  match splitWhitespace command with
  | [] => .ok (ControlRequest.new (.toggle none))
  | action :: rest =>
    if action = "toggle" then
      match parseLangTokens "toggle" rest none with
      | .error e => .error e
      | .ok lang => .ok (ControlRequest.new (.toggle lang))
    else if action = "status" then
      match rest with
      | [] => .ok (ControlRequest.new .status)
      | token :: _ => .error ("unexpected token \x27" ++ token ++ "\x27 for status")
    else if action = "set-language" then
      match parseLangTokens "set-language" rest none with
      | .error e => .error e
      | .ok none => .error "missing lang=<CODE>"
      | .ok (some lang) => .ok (ControlRequest.new (.setLanguage lang))
    else if action = "stop" then
      match rest with
      | [] => .ok (ControlRequest.new .stop)
      | token :: _ => .error ("unexpected token \x27" ++ token ++ "\x27 for stop")
    else .error ("unsupported daemon command: " ++ action)

/-! ## src/daemon.rs -/

/-- `ControlEvent` from `src/daemon.rs` (the `Error` variant is named
`errorMsg` here). -/
inductive ControlEvent
  | toggle (language : Option String)
  | status
  | setLanguage (language : String)
  | stop
  | errorMsg (message : String)
deriving DecidableEq, Repr

/-- `control_event_from_command` from `src/daemon.rs`. -/
def control_event_from_command (command : String) : Except String ControlEvent :=
  match parse_control_request command with
  | .error e => .error e
  | .ok req =>
    match req.command with
    | .toggle lang => .ok (.toggle lang)
    | .status => .ok .status
    | .setLanguage lang => .ok (.setLanguage lang)
    | .stop => .ok .stop

/-- `control_ok_response` from `src/daemon.rs`. -/
def control_ok_response (state language : String) : ControlResponse :=
  ControlResponse.okResponse (some state) (some language)

/-- `control_error_response` from `src/daemon.rs`. -/
def control_error_response (error message : String) : ControlResponse :=
  ControlResponse.errorResponse error message

/-- What the control-socket listener does with one connection after a
successful read (lines 812-823 of `src/daemon.rs`): trim the buffer, parse
the command; a parse failure is answered with an `invalid_request` error
response and nothing is forwarded to the coordinator; otherwise the parsed
event is forwarded. -/
inductive ListenerAction
  | reply (response : ControlResponse)
  | forward (event : ControlEvent)
deriving DecidableEq, Repr

/-- Per-connection dispatch of `start_socket_listener` (read already
succeeded; the reply/forward distinction is `ListenerAction`). -/
def listenerHandle (raw : String) : ListenerAction :=
  match control_event_from_command (trimChars raw) with
  | .error message => .reply (control_error_response "invalid_request" message)
  | .ok event => .forward event

/-- `normalize_language` from `src/daemon.rs`: trim then ASCII lower-case
(`Char.toLower` lowers exactly the ASCII uppercase letters, matching
`to_ascii_lowercase`). -/
def normalize_language (language : String) : String :=
  ⟨(trimChars language).data.map Char.toLower⟩

/-- A transcription capability (the `Transcriber` trait): samples and an
optional language in, text or an error out. -/
def Transcriber : Type := List ℚ → Option String → Except String String

/-- `ModelSize` from `src/model.rs`. -/
inductive ModelSize
  | auto
  | tiny
  | base
  | small
  | medium
  | large
deriving DecidableEq, Repr

/-- `ModelLanguage` from `src/model.rs`. -/
inductive ModelLanguage
  | auto
  | en
deriving DecidableEq, Repr

/-- `ModelSpec` from `src/model.rs`. -/
structure ModelSpec where
  size : ModelSize
  language : ModelLanguage
deriving DecidableEq, Repr

/-- Modelled from the spec: `model::model_language_for_transcription` is
called from `src/daemon.rs` but its definition is not among the provided
sources; per the spec's model-variant description and the repository's
acceptance test `at01b`, `"en"` selects the English-only variant and every
other code the multilingual (`auto`) variant. -/
def model_language_for_transcription (language : String) : ModelLanguage :=
  if language = "en" then .en else .auto

/-- `model_size_token` from `src/daemon.rs`. -/
def model_size_token : ModelSize → String
  | .auto => "auto"
  | .tiny => "tiny"
  | .base => "base"
  | .small => "small"
  | .medium => "medium"
  | .large => "large"

/-- `model_language_token` from `src/daemon.rs`. -/
def model_language_token : ModelLanguage → String
  | .auto => "auto"
  | .en => "en"

/-- The `TranscriberFactory` trait: load a transcriber for a model spec
(the second argument is `allow_download`). -/
def TranscriberFactory : Type := ModelSpec → Bool → Except String Transcriber

/-- `ModelPoolEntry` from `src/daemon.rs`. -/
structure ModelPoolEntry where
  transcriber : Transcriber
  modelSize : String
  modelLanguage : String

/-- `ModelPool` from `src/daemon.rs`; the `HashMap<String, ModelPoolEntry>`
is modelled as an association list where the most recent insertion for a
key shadows older ones. -/
def ModelPool : Type := List (String × ModelPoolEntry)

/-- `HashMap::get` on the pool. -/
def ModelPool.get? (pool : ModelPool) (language : String) : Option ModelPoolEntry :=
  (pool.find? (fun e => e.1 == language)).map (fun e => e.2)

/-- `ModelPool::set_entry`. -/
def ModelPool.setEntry (pool : ModelPool) (language : String)
    (entry : ModelPoolEntry) : ModelPool :=
  (language, entry) :: pool

/-- `ModelPool::transcriber_for`. -/
def ModelPool.transcriberFor (pool : ModelPool) (language : String) : Option Transcriber :=
  (pool.get? language).map (fun e => e.transcriber)

/-- `ModelPool::metadata_for`. -/
def ModelPool.metadataFor (pool : ModelPool) (language : String) : Option (String × String) :=
  (pool.get? language).map (fun e => (e.modelSize, e.modelLanguage))

/-- The daemon configuration fields that `run_daemon_loop` reads (device,
output format/mode and debug flags do not influence the modelled
behaviour and are omitted). -/
structure DaemonConfig where
  downloadModel : Bool
  language : String
  modelPoolLanguages : List String
  sampleRate : ℕ
  vadOn : Bool
  vadSilenceMs : ℕ
  vadThreshold : ℚ
  vadChunkMs : ℕ
  debugVad : Bool

/-- The `VadConfig::new(config.vad == VadMode::On, ...)` construction in
`run_daemon_loop`. -/
def DaemonConfig.vad (cfg : DaemonConfig) : VadConfig :=
  ⟨cfg.vadOn, cfg.vadThreshold, cfg.vadSilenceMs, cfg.vadChunkMs, cfg.debugVad⟩

/-- `ModelPool::load_language`. -/
def load_language (pool : ModelPool) (language : String) (cfg : DaemonConfig)
    (factory : TranscriberFactory) : Except String ModelPool :=
  let spec : ModelSpec := ⟨.small, model_language_for_transcription language⟩
  match factory spec cfg.downloadModel with
  | .error e => .error e
  | .ok transcriber =>
    .ok (pool.setEntry language
      ⟨transcriber, model_size_token spec.size, model_language_token spec.language⟩)

/-- `ModelPool::ensure_language`: reports whether a fresh load occurred. -/
def ensure_language (pool : ModelPool) (language : String) (cfg : DaemonConfig)
    (factory : TranscriberFactory) : Except String (Bool × ModelPool) :=
  if (pool.get? language).isSome then .ok (false, pool)
  else
    match load_language pool language cfg factory with
    | .error e => .error e
    | .ok pool' => .ok (true, pool')

/-- `ModelPool::preload`. -/
def preloadPool (cfg : DaemonConfig) (factory : TranscriberFactory) :
    Except String ModelPool :=
  let preloadLanguages := cfg.modelPoolLanguages.map normalize_language
  let active := normalize_language cfg.language
  let allLanguages :=
    if preloadLanguages.contains active then preloadLanguages
    else preloadLanguages ++ [active]
  allLanguages.foldlM (fun pool l => load_language pool l cfg factory) ([] : ModelPool)

/-- `DaemonEventType` from `src/ipc.rs`, without the timestamp and API
version that `DaemonEvent::new` adds (they carry no claim-relevant
information). -/
inductive DaemonEventType
  | daemonReady
  | recordingStarted (language : String)
  | recordingStopped (language : String)
  | transcriptFinal (language : String) (utterance : ℕ) (durationMs : ℕ) (text : String)
  | modelLoaded (language : String) (modelSize : String) (modelLanguage : String)
  | errorEvent (message : String)
deriving DecidableEq, Repr

/-- `emit_model_loaded_event` from `src/daemon.rs`: emits a `ModelLoaded`
event exactly when the pool has metadata for the language. -/
def model_loaded_events (pool : ModelPool) (language : String) : List DaemonEventType :=
  match pool.metadataFor language with
  | none => []
  | some (size, mlang) => [.modelLoaded language size mlang]

/-- The environment's answer to successive `CaptureSource::drain` calls on
one capture handle: the k-th drain appends the k-th chunk (an exhausted
schedule yields empty drains). -/
def CaptureSchedule : Type := List (List ℚ)

/-- One `drain` call against a schedule. -/
def drainOnce : CaptureSchedule → List ℚ × CaptureSchedule
  | [] => ([], [])
  | chunk :: rest => (chunk, rest)

/-- The mutable state of `run_daemon_loop` (lines 304-308 of
`src/daemon.rs`) plus the shutdown flag and the environment's supply of
capture streams handed out by successive `start_capture` calls. -/
structure LoopState where
  recording : Bool
  activeLanguage : String
  buffer : List ℚ
  utteranceIndex : ℕ
  capture : Option CaptureSchedule
  pool : ModelPool
  shutdown : Bool
  captureSupply : List (Except String CaptureSchedule)

/-- `finalize_recording` from `src/daemon.rs`: returns the events emitted
(through the event channel) and either the updated utterance index or the
propagated error.  On a transcription failure the `Error` event is emitted
and the same message is then returned as an `Err`, which the caller
propagates with `?`. -/
def finalize_recording (cfg : DaemonConfig) (transcriber : Transcriber)
    (language : String) (buffer : List ℚ) (utteranceIndex : ℕ) :
    List DaemonEventType × Except String ℕ :=
  let trimmed := trim_trailing_silence buffer cfg.sampleRate cfg.vad
  if trimmed.isEmpty then ([], .ok utteranceIndex)
  else
    let idx := utteranceIndex + 1
    let durationMs := samples_to_ms trimmed.length cfg.sampleRate
    match transcriber trimmed (some language) with
    | .error e => ([.errorEvent e], .error e)
    | .ok text => ([.transcriptFinal language idx durationMs text], .ok idx)

/-- `stop_recording` from `src/daemon.rs`: take the capture handle (an
absent handle is the "capture stream missing" error), drain it once more
into the buffer, then finalize. -/
def stop_recording (cfg : DaemonConfig) (transcriber : Transcriber)
    (language : String) (s : LoopState) : List DaemonEventType × Except String LoopState :=
  match s.capture with
  | none => ([], .error "capture stream missing")
  | some sched =>
    let buffer := s.buffer ++ (drainOnce sched).1
    match finalize_recording cfg transcriber language buffer s.utteranceIndex with
    | (events, .error e) => (events, .error e)
    | (events, .ok idx) =>
      (events, .ok { s with capture := none, buffer := buffer, utteranceIndex := idx })

/-- The "no model loaded" error of `active_transcriber` from
`src/daemon.rs`. -/
def no_model_error (language : String) : String :=
  "no model loaded for language \x27" ++ language ++ "\x27; set-language first"

/-- Result of processing one control message: either the loop continues
with a response and a new state, or `run_daemon_loop` returns an error
(optionally after sending a response, as in the `ControlEvent::Error`
arm). -/
inductive StepFlow
  | next (response : ControlResponse) (s : LoopState)
  | fail (e : String) (response : Option ControlResponse)

/-- The `match message.event { ... }` body of `run_daemon_loop` (lines
340-430 of `src/daemon.rs`), returning the events emitted while processing
the message together with the control flow. -/
def processEvent (cfg : DaemonConfig) (factory : TranscriberFactory)
    (s : LoopState) : ControlEvent → List DaemonEventType × StepFlow
  | .toggle language =>
    let staged : List DaemonEventType × Except String LoopState :=
      match language with
      | none => ([], .ok s)
      | some l =>
        let normalized := normalize_language l
        match ensure_language s.pool normalized cfg factory with
        | .error e => ([], .error e)
        | .ok (_, pool') =>
          (model_loaded_events pool' normalized,
            .ok { s with pool := pool', activeLanguage := normalized })
    match staged with
    | (events₀, .error e) => (events₀, .fail e none)
    | (events₀, .ok s₁) =>
      if s₁.recording then
        let s₂ := { s₁ with recording := false }
        match s₂.pool.transcriberFor s₂.activeLanguage with
        | none => (events₀, .fail (no_model_error s₂.activeLanguage) none)
        | some transcriber =>
          match stop_recording cfg transcriber s₂.activeLanguage s₂ with
          | (events₁, .error e) => (events₀ ++ events₁, .fail e none)
          | (events₁, .ok s₃) =>
            (events₀ ++ events₁ ++ [.recordingStopped s₃.activeLanguage],
              .next (control_ok_response "idle" s₃.activeLanguage) s₃)
      else
        match s₁.captureSupply with
        | [] => (events₀, .fail "no default input device available" none)
        | supplied :: supplyRest =>
          match supplied with
          | .error e => (events₀, .fail e none)
          | .ok sched =>
            let s₂ := { s₁ with
              recording := true
              buffer := []
              capture := some sched
              captureSupply := supplyRest }
            (events₀ ++ [.recordingStarted s₂.activeLanguage],
              .next (control_ok_response "recording" s₂.activeLanguage) s₂)
  | .status =>
    ([], .next
      (control_ok_response (if s.recording then "recording" else "idle") s.activeLanguage) s)
  | .setLanguage language =>
    let normalized := normalize_language language
    match ensure_language s.pool normalized cfg factory with
    | .error e => ([], .fail e none)
    | .ok (_, pool') =>
      let s₁ := { s with pool := pool', activeLanguage := normalized }
      (model_loaded_events pool' normalized,
        .next
          (control_ok_response (if s₁.recording then "recording" else "idle") normalized) s₁)
  | .stop =>
    ([], .next
      (control_ok_response (if s.recording then "recording" else "idle") s.activeLanguage)
      { s with shutdown := true })
  | .errorMsg message =>
    ([.errorEvent message],
      .fail message (some (control_error_response "listener_error" message)))

/-- The end-of-iteration audio drain (lines 442-446 of `src/daemon.rs`):
while recording, drain newly arrived samples into the accumulation
buffer. -/
def drainStep (s : LoopState) : LoopState :=
  if s.recording then
    match s.capture with
    | some sched => { s with
        buffer := s.buffer ++ (drainOnce sched).1
        capture := some (drainOnce sched).2 }
    | none => s
  else s

/-- The shutdown check at the top of each loop iteration (lines 314-337 of
`src/daemon.rs`): with the flag set, a recording in progress is stopped
(fetching the active transcriber first) and `RecordingStopped` emitted,
then the loop breaks; errors propagate out of `run_daemon_loop`. -/
def shutdownFinalize (cfg : DaemonConfig) (s : LoopState) :
    List DaemonEventType × Except String Unit :=
  if s.recording then
    match s.pool.transcriberFor s.activeLanguage with
    | none => ([], .error (no_model_error s.activeLanguage))
    | some transcriber =>
      match stop_recording cfg transcriber s.activeLanguage s with
      | (events, .error e) => (events, .error e)
      | (events, .ok s') =>
        (events ++ [.recordingStopped s'.activeLanguage], .ok ())
  else ([], .ok ())

/-- One scheduling observation per loop iteration: a control message
arrived within the 20 ms receive window, the window elapsed (`timeout`), or
the control channel is gone (`disconnected`). -/
inductive LoopInput
  | message (event : ControlEvent)
  | timeout
  | disconnected
deriving DecidableEq, Repr

/-- How `run_daemon_loop` left its `loop`: a clean break after shutdown, an
error return, or the input schedule ran out with the loop still
running. -/
inductive LoopOutcome
  | ok
  | fail (e : String)
  | outOfInput
deriving DecidableEq, Repr

/-- Observable result of running the coordinator loop over an input
schedule: the outcome, the events emitted (in order) and the control
responses sent (in order). -/
structure LoopResult where
  outcome : LoopOutcome
  events : List DaemonEventType
  responses : List ControlResponse
deriving DecidableEq, Repr

/-- The `loop` of `run_daemon_loop` (lines 313-447 of `src/daemon.rs`),
driven by a finite schedule of receive observations.  Each iteration:
check the shutdown flag (finalizing any open recording and breaking), else
process at most one control message (a `?`-propagated error ends the loop
with `fail`), then drain audio while recording. -/
def runLoop (cfg : DaemonConfig) (factory : TranscriberFactory) :
    LoopState → List LoopInput → LoopResult
  | s, inputs =>
    if s.shutdown then
      match shutdownFinalize cfg s with
      | (events, .error e) => ⟨.fail e, events, []⟩
      | (events, .ok _) => ⟨.ok, events, []⟩
    else
      match inputs with
      | [] => ⟨.outOfInput, [], []⟩
      | .timeout :: rest => runLoop cfg factory (drainStep s) rest
      | .disconnected :: _ => ⟨.fail "socket listener disconnected", [], []⟩
      | .message event :: rest =>
        match processEvent cfg factory s event with
        | (events, .fail e response) => ⟨.fail e, events, response.toList⟩
        | (events, .next response s') =>
          let r := runLoop cfg factory (drainStep s') rest
          ⟨r.outcome, events ++ r.events, response :: r.responses⟩

/-- The state `run_daemon_loop` enters its loop with (lines 304-308),
given the preloaded pool and the environment's capture supply. -/
def initState (cfg : DaemonConfig) (pool : ModelPool)
    (captureSupply : List (Except String CaptureSchedule)) : LoopState :=
  { recording := false
    activeLanguage := normalize_language cfg.language
    buffer := []
    utteranceIndex := 0
    capture := none
    pool := pool
    shutdown := false
    captureSupply := captureSupply }

/-- `run_daemon_loop` from `src/daemon.rs`: preload the pool, emit
`DaemonReady` and the startup `ModelLoaded` for the active language, then
run the loop.  (Audio-host selection and device listing are
environment-only startup steps with no bearing on the claims and are
omitted.) -/
def run_daemon_loop (cfg : DaemonConfig) (factory : TranscriberFactory)
    (captureSupply : List (Except String CaptureSchedule))
    (inputs : List LoopInput) : Except String LoopResult :=
  match preloadPool cfg factory with
  | .error e => .error e
  | .ok pool =>
    let s := initState cfg pool captureSupply
    let r := runLoop cfg factory s inputs
    .ok ⟨r.outcome,
      .daemonReady :: model_loaded_events pool s.activeLanguage ++ r.events,
      r.responses⟩

/-! ## Concrete fixtures for closed counterexamples and witnesses -/

/-- A small daemon configuration: language `en`, pool `["en"]`, 1 Hz
sample rate, VAD off. -/
def demoConfig : DaemonConfig := ⟨false, "en", ["en"], 1, false, 800, 3/200, 250, false⟩

/-- A transcriber that always fails with `boom`. -/
def failingTranscriber : Transcriber := fun _ _ => .error "boom"

/-- A factory issuing `failingTranscriber` for every spec. -/
def failingFactory : TranscriberFactory := fun _ _ => .ok failingTranscriber

/-- A pool holding `failingTranscriber` for `en`. -/
def failingPool : ModelPool := [("en", ⟨failingTranscriber, "small", "en"⟩)]

/-- Loop start state with `failingPool` and one capture whose first drain
yields one sample. -/
def failingStart : LoopState := initState demoConfig failingPool [.ok [[1]]]

/-- A mid-recording state whose active model is `failingTranscriber`. -/
def failingRecordingState : LoopState :=
  { failingStart with recording := true, buffer := [1], capture := some [] }

/-- A transcriber that always answers `hello`. -/
def helloTranscriber : Transcriber := fun _ _ => .ok "hello"

/-- A factory issuing `helloTranscriber` for every spec. -/
def helloFactory : TranscriberFactory := fun _ _ => .ok helloTranscriber

/-- A pool holding `helloTranscriber` for `en`. -/
def helloPool : ModelPool := [("en", ⟨helloTranscriber, "small", "en"⟩)]

/-- A mid-recording state whose active model is `helloTranscriber`. -/
def helloRecordingState : LoopState :=
  { initState demoConfig helloPool [] with
      recording := true, buffer := [1], capture := some [] }

/-- Idle start state with `helloPool` and one fresh capture available. -/
def helloStart : LoopState := initState demoConfig helloPool [.ok [[1]]]

/-! ## Theorems -/

/-- C5: for every sample buffer, `trim_trailing_silence` returns the input
buffer unchanged whenever the `VadConfig`'s enabled flag is false or the
buffer is empty. -/
theorem trim_trailing_silence_noop (samples : List ℚ) (rate : ℕ) (vad : VadConfig)
    (h : samples = [] ∨ vad.enabled = false) :
    trim_trailing_silence samples rate vad = samples := by
  rcases h with h | h <;> simp [trim_trailing_silence, h]

/-- Witness for C5 at a concrete input: a VAD-disabled configuration leaves
a nonempty buffer untouched. -/
theorem trim_trailing_silence_noop_witness :
    ([2, 2] = ([] : List ℚ) ∨ (VadConfig.mk false (3/200) 800 250 false).enabled = false) ∧
      trim_trailing_silence [2, 2] 16000 (VadConfig.mk false (3/200) 800 250 false) = [2, 2] :=
  ⟨Or.inr rfl,
    trim_trailing_silence_noop [2, 2] 16000 (VadConfig.mk false (3/200) 800 250 false)
      (Or.inr rfl)⟩

/-- C10: `samples_to_ms` is total — it returns `0` at sample rate `0`, and
at any positive rate it returns the millisecond duration rounded to the
nearest integer (its value differs from the exact duration
`samples / rate * 1000` by at most one half). -/
theorem samples_to_ms_total (n rate : ℕ) (h : rate ≠ 0) :
    samples_to_ms n 0 = 0 ∧
      |(samples_to_ms n rate : ℚ) - (n : ℚ) / (rate : ℚ) * 1000| ≤ 1 / 2 := by
  constructor
  · simp [samples_to_ms]
  · rw [samples_to_ms, if_neg h]
    have hx0 : (0 : ℚ) ≤ (n : ℚ) / (rate : ℚ) * 1000 := by positivity
    have hr0 : (0 : ℤ) ≤ round ((n : ℚ) / (rate : ℚ) * 1000) := by
      rw [round_eq]
      refine Int.le_floor.mpr ?_
      push_cast
      linarith
    have hcast : ((round ((n : ℚ) / (rate : ℚ) * 1000)).toNat : ℚ)
        = ((round ((n : ℚ) / (rate : ℚ) * 1000) : ℤ) : ℚ) := by
      exact_mod_cast congrArg (fun z : ℤ => (z : ℚ)) (Int.toNat_of_nonneg hr0)
    rw [hcast, abs_sub_comm]
    exact abs_sub_round _

/-- Witness for C10 at a concrete input. -/
theorem samples_to_ms_total_witness :
    (1 : ℕ) ≠ 0 ∧
      (samples_to_ms 1 0 = 0 ∧
        |(samples_to_ms 1 1 : ℚ) - (1 : ℚ) / (1 : ℚ) * 1000| ≤ 1 / 2) :=
  ⟨by decide, samples_to_ms_total 1 1 (by decide)⟩

/-- C4 (counterexample): `trim_trailing_silence` is not idempotent.  With a
one-sample chunk, a one-second silence timeout and a 1 Hz rate, a
three-sample silent buffer is trimmed to two samples (the loop stops once
the accumulated silence reaches the timeout), and a second application
trims one more sample. -/
theorem trim_trailing_silence_not_idempotent :
    trim_trailing_silence
        (trim_trailing_silence [0, 0, 0] 1 (VadConfig.mk true (3/200) 1000 1000 false)) 1
        (VadConfig.mk true (3/200) 1000 1000 false) ≠
      trim_trailing_silence [0, 0, 0] 1 (VadConfig.mk true (3/200) 1000 1000 false) := by
  norm_num [trim_trailing_silence, trimLoop, rmsGe, sumSquares, samples_to_ms,
    duration_to_samples]

/-- C4 (amended): `trim_trailing_silence` leaves a buffer unchanged when
VAD is disabled, the buffer is empty, or the buffer's final chunk has RMS
at or above the threshold.  Since a pass that stops at a loud chunk leaves
exactly such a buffer, the function is idempotent whenever the first pass
did not stop by reaching the silence timeout; the counterexample shows a
timeout stop breaks idempotence. -/
theorem trim_trailing_silence_fixed_of_loud_tail (samples : List ℚ) (rate : ℕ)
    (vad : VadConfig)
    (h : vad.enabled = false ∨ samples = [] ∨
      rmsGe
        (samples.drop
          (samples.length - max (duration_to_samples rate vad.chunkSizeMs) 1))
        vad.energyThreshold = true) :
    trim_trailing_silence samples rate vad = samples := by
  rcases h with h | h | h
  · simp [trim_trailing_silence, h]
  · simp [trim_trailing_silence, h]
  · by_cases he : vad.enabled
    case neg => simp [trim_trailing_silence, he]
    cases samples with
    | nil => simp [trim_trailing_silence]
    | cons a t =>
      have hmax : max (max (duration_to_samples rate vad.chunkSizeMs) 1) 1
          = max (duration_to_samples rate vad.chunkSizeMs) 1 := by omega
      have htake : (a :: t).take (t.length + 1) = a :: t := List.take_length (a :: t)
      have h' : rmsGe
          ((a :: t).drop
            (t.length + 1 - max (duration_to_samples rate vad.chunkSizeMs) 1))
          vad.energyThreshold = true := h
      simp only [trim_trailing_silence, List.isEmpty_cons, he, Bool.not_true, Bool.or_false,
        if_false, List.length_cons]
      simp only [trimLoop, hmax, htake, h', if_true, ite_self]

/-- Witness for the amended C4 at a concrete input: a buffer whose final
chunk is loud is left unchanged. -/
theorem trim_trailing_silence_fixed_of_loud_tail_witness :
    ((VadConfig.mk true (3/200) 1000 1000 false).enabled = false ∨ ([1] : List ℚ) = [] ∨
      rmsGe
        (([1] : List ℚ).drop
          (([1] : List ℚ).length -
            max (duration_to_samples 1 (VadConfig.mk true (3/200) 1000 1000 false).chunkSizeMs) 1))
        (VadConfig.mk true (3/200) 1000 1000 false).energyThreshold = true) ∧
      trim_trailing_silence [1] 1 (VadConfig.mk true (3/200) 1000 1000 false) = [1] :=
  ⟨Or.inr (Or.inr (by norm_num [rmsGe, sumSquares, duration_to_samples])),
    trim_trailing_silence_fixed_of_loud_tail [1] 1 (VadConfig.mk true (3/200) 1000 1000 false)
      (Or.inr (Or.inr (by norm_num [rmsGe, sumSquares, duration_to_samples])))⟩

/-- C7: a command line that does not parse under the whitespace-tokenized
grammar is answered by the control listener with an `invalid_request`
error response whose `ok` is false, and no message is forwarded to the
coordinator (hence the coordinator's recording state cannot change). -/
theorem invalid_command_short_circuits (raw m : String)
    (h : parse_control_request (trimChars raw) = .error m) :
    listenerHandle raw = .reply (control_error_response "invalid_request" m) ∧
      (control_error_response "invalid_request" m).ok = false ∧
      (control_error_response "invalid_request" m).error = some "invalid_request" ∧
      ∀ event, listenerHandle raw ≠ .forward event := by
  have hl : listenerHandle raw = .reply (control_error_response "invalid_request" m) := by
    simp [listenerHandle, control_event_from_command, h]
  refine ⟨hl, rfl, rfl, fun event hcontra => ?_⟩
  rw [hl] at hcontra
  exact ListenerAction.noConfusion hcontra

/-- Witness for C7: the line `bogus` is rejected as `invalid_request`. -/
theorem invalid_command_short_circuits_witness :
    parse_control_request (trimChars "bogus") = .error "unsupported daemon command: bogus" ∧
      (listenerHandle "bogus" =
          .reply (control_error_response "invalid_request" "unsupported daemon command: bogus") ∧
        (control_error_response "invalid_request" "unsupported daemon command: bogus").ok = false ∧
        (control_error_response "invalid_request"
            "unsupported daemon command: bogus").error = some "invalid_request" ∧
        ∀ event, listenerHandle "bogus" ≠ .forward event) :=
  ⟨by decide, invalid_command_short_circuits "bogus" "unsupported daemon command: bogus" (by decide)⟩

/-- C9: a control command consisting only of whitespace (in particular the
empty string) parses successfully to a `Toggle` request with no language
rather than failing, and the listener therefore forwards a toggle to the
coordinator for an empty line. -/
theorem whitespace_command_parses_as_toggle (s : String)
    (h : splitWhitespace s = []) :
    parse_control_request s = .ok (ControlRequest.new (.toggle none)) ∧
      control_event_from_command s = .ok (.toggle none) ∧
      listenerHandle "" = .forward (.toggle none) := by
  have hp : parse_control_request s = .ok (ControlRequest.new (.toggle none)) := by
    simp [parse_control_request, h]
  exact ⟨hp, by simp [control_event_from_command, hp, ControlRequest.new], by decide⟩

/-- Witness for C9: a whitespace-only command parses to `Toggle`. -/
theorem whitespace_command_parses_as_toggle_witness :
    splitWhitespace "  \t " = [] ∧
      (parse_control_request "  \t " = .ok (ControlRequest.new (.toggle none)) ∧
        control_event_from_command "  \t " = .ok (.toggle none) ∧
        listenerHandle "" = .forward (.toggle none)) :=
  ⟨by decide, whitespace_command_parses_as_toggle "  \t " (by decide)⟩

/-- `maxRank` unfolds on a cons. -/
theorem maxRank_cons (c : SupportedStreamConfig) (l : List SupportedStreamConfig) :
    maxRank (c :: l) = max (sample_format_rank c.format) (maxRank l) := rfl

/-- One step of `selectLoop`, with the identical mono / non-mono branches
merged and the skip condition phrased through `rateInRange`. -/
theorem selectLoop_cons (rate : ℕ) (c : SupportedStreamConfig)
    (rest : List SupportedStreamConfig) (best : Option (StreamConfig × SampleFormat))
    (bestRank : ℕ) :
    selectLoop rate (c :: rest) best bestRank =
      if rateInRange rate c = true then
        if best.isNone || decide (bestRank < sample_format_rank c.format) then
          selectLoop rate rest (some (⟨c.channels, rate⟩, c.format))
            (sample_format_rank c.format)
        else selectLoop rate rest best bestRank
      else selectLoop rate rest best bestRank := by
  by_cases h : rateInRange rate c = true
  · have h1 : (rate < c.minRate || c.maxRate < rate) = false := by
      simp only [rateInRange, Bool.and_eq_true, decide_eq_true_eq] at h
      simp only [Bool.or_eq_false_iff, decide_eq_false_iff_not]
      omega
    simp only [selectLoop, h1, Bool.false_eq_true, if_false, if_pos h, ite_self]
  · have h1 : (rate < c.minRate || c.maxRate < rate) = true := by
      simp only [rateInRange, Bool.and_eq_true, decide_eq_true_eq, not_and] at h
      simp only [Bool.or_eq_true, decide_eq_true_eq]
      omega
    simp only [selectLoop, h1, if_true, if_neg h]

/-- Accumulator lemma: starting from a `some` best whose rank matches,
`selectLoop` computes the running first-maximum over the eligible
remainder. -/
theorem selectLoop_acc (rate : ℕ) (l : List SupportedStreamConfig)
    (b : SupportedStreamConfig) :
    selectLoop rate l (some (⟨b.channels, rate⟩, b.format)) (sample_format_rank b.format) =
      some (⟨(firstMaxCfg b (l.filter (rateInRange rate))).channels, rate⟩,
        (firstMaxCfg b (l.filter (rateInRange rate))).format) := by
  induction l generalizing b with
  | nil => simp [selectLoop, firstMaxCfg]
  | cons c rest ih =>
    rw [selectLoop_cons]
    by_cases h : rateInRange rate c = true
    · rw [if_pos h]
      by_cases h2 : sample_format_rank b.format < sample_format_rank c.format
      · simp only [Option.isNone_some, Bool.false_or, decide_eq_true h2, if_true]
        rw [ih c]
        simp [List.filter_cons, h, firstMaxCfg, h2]
      · simp only [Option.isNone_some, Bool.false_or, decide_eq_false h2,
          Bool.false_eq_true, if_false]
        rw [ih b]
        simp [List.filter_cons, h, firstMaxCfg, h2]
    · rw [if_neg h]
      rw [ih b]
      simp [List.filter_cons, h]

/-- Starting from no best, `selectLoop` returns the first-maximum of the
eligible candidates (or `none` when there are none). -/
theorem selectLoop_none (rate : ℕ) (l : List SupportedStreamConfig) :
    selectLoop rate l none 0 =
      match l.filter (rateInRange rate) with
      | [] => none
      | c :: rest =>
        some (⟨(firstMaxCfg c rest).channels, rate⟩, (firstMaxCfg c rest).format) := by
  induction l with
  | nil => simp [selectLoop]
  | cons c rest ih =>
    rw [selectLoop_cons]
    by_cases h : rateInRange rate c = true
    · rw [if_pos h]
      simp only [Option.isNone_none, Bool.true_or, if_true]
      rw [selectLoop_acc]
      simp [List.filter_cons, h]
    · rw [if_neg h]
      rw [ih]
      simp [List.filter_cons, h]

/-- The running first-maximum is the first list element attaining the
maximal rank. -/
theorem firstMaxCfg_find (l : List SupportedStreamConfig) (b : SupportedStreamConfig) :
    some (firstMaxCfg b l) =
      (b :: l).find? (fun c => sample_format_rank c.format == maxRank (b :: l)) := by
  induction l generalizing b with
  | nil =>
    simp [firstMaxCfg, maxRank, List.find?]
  | cons c rest ih =>
    by_cases h : sample_format_rank b.format < sample_format_rank c.format
    · have hM : maxRank (b :: c :: rest) = maxRank (c :: rest) := by
        simp only [maxRank_cons]
        omega
      have hb : (sample_format_rank b.format == maxRank (c :: rest)) = false := by
        simp only [beq_eq_false_iff_ne, ne_eq, maxRank_cons]
        omega
      simp only [firstMaxCfg, if_pos h, ih c, hM, List.find?, hb]
    · have hM : maxRank (b :: c :: rest) = maxRank (b :: rest) := by
        simp only [maxRank_cons]
        omega
      simp only [firstMaxCfg, if_neg h, ih b, hM]
      by_cases hb : (sample_format_rank b.format == maxRank (b :: rest)) = true
      · simp only [List.find?, hb]
      · have hb' : (sample_format_rank b.format == maxRank (b :: rest)) = false := by
          simp only [Bool.not_eq_true] at hb
          exact hb
        have hc : (sample_format_rank c.format == maxRank (b :: rest)) = false := by
          simp only [beq_eq_false_iff_ne, ne_eq, maxRank_cons] at hb' ⊢
          omega
        simp only [List.find?, hb', hc]

/-- `select_stream_config` equals its specification: the first eligible
candidate of maximal sample-format rank. -/
theorem select_stream_config_eq_spec (configs : List SupportedStreamConfig) (rate : ℕ) :
    select_stream_config configs rate = selectSpecFirstMaxRank configs rate := by
  rw [select_stream_config, selectLoop_none, selectSpecFirstMaxRank]
  cases h : configs.filter (rateInRange rate) with
  | nil => simp [h]
  | cons c rest =>
    simp only [h, ← firstMaxCfg_find]
    rfl

/-- C8 (counterexample): native-mono configurations are not preferred.
With two eligible `F32` candidates of equal rank — a 2-channel one listed
first and a 1-channel one second — the selection keeps the first,
2-channel configuration. -/
theorem select_stream_config_keeps_first_not_mono :
    select_stream_config
        [⟨16000, 16000, 2, .f32⟩, ⟨16000, 16000, 1, .f32⟩] 16000 =
      some (⟨2, 16000⟩, .f32) ∧
      (⟨2, 16000⟩ : StreamConfig) ≠ (⟨1, 16000⟩ : StreamConfig) := by
  decide

/-- C8 (amended): the selection ranks candidates by sample-format
precision (32-bit float ranked best at 6, 8-bit unsigned worst at 0),
considers only configurations whose supported range contains the requested
rate, and among those keeps the first candidate attaining the maximal rank
— the channel count does not influence the choice (no mono preference). -/
theorem select_stream_config_ranked :
    (∀ configs rate, select_stream_config configs rate = selectSpecFirstMaxRank configs rate) ∧
      sample_format_rank .f32 = 6 ∧ sample_format_rank .u8 = 0 ∧
      ∀ f, sample_format_rank f ≤ sample_format_rank .f32 :=
  ⟨select_stream_config_eq_spec, rfl, rfl, fun f => by cases f <;> decide⟩

/-- With the shutdown flag set, `runLoop` finalizes and exits regardless of
the remaining input schedule. -/
theorem runLoop_shutdown (cfg : DaemonConfig) (factory : TranscriberFactory)
    (s : LoopState) (inputs : List LoopInput) (h : s.shutdown = true) :
    runLoop cfg factory s inputs =
      match shutdownFinalize cfg s with
      | (events, .error e) => ⟨.fail e, events, []⟩
      | (events, .ok _) => ⟨.ok, events, []⟩ := by
  cases inputs with
  | nil => simp only [runLoop, h, if_true]
  | cons i rest => cases i <;> simp only [runLoop, h, if_true]

/-- C1 (counterexample): a transcription failure during toggle-off does not
return the loop to Idle and keep it running — it terminates the loop.  In a
concrete run (toggle on, toggle off with a failing transcriber, then a
status query), the `Error` event is emitted, the loop ends with that error,
and the trailing status message is never answered (only the first toggle's
response was sent). -/
theorem transcription_failure_terminates_loop :
    runLoop demoConfig failingFactory failingStart
        [.message (.toggle none), .message (.toggle none), .message .status] =
      ⟨.fail "boom", [.recordingStarted "en", .errorEvent "boom"],
        [control_ok_response "recording" "en"]⟩ := by
  decide

/-- C1 (amended): if transcription fails while a recording is being stopped
on toggle-off, the daemon emits an `Error` event for that utterance and
`run_daemon_loop` returns the error — the loop terminates (the remaining
schedule is not processed and no `RecordingStopped` is emitted) rather
than returning to Idle and continuing. -/
theorem toggle_off_transcription_failure (cfg : DaemonConfig)
    (factory : TranscriberFactory) (s : LoopState) (t : Transcriber)
    (sched : CaptureSchedule) (rest : List LoopInput) (e : String)
    (hrec : s.recording = true) (hsd : s.shutdown = false)
    (ht : s.pool.transcriberFor s.activeLanguage = some t)
    (hcap : s.capture = some sched)
    (hne : (trim_trailing_silence (s.buffer ++ (drainOnce sched).1) cfg.sampleRate
        cfg.vad).isEmpty = false)
    (hfail : t (trim_trailing_silence (s.buffer ++ (drainOnce sched).1) cfg.sampleRate cfg.vad)
        (some s.activeLanguage) = .error e) :
    runLoop cfg factory s (.message (.toggle none) :: rest) =
      ⟨.fail e, [.errorEvent e], []⟩ := by
  obtain ⟨rec, lang, buf, idx, cap, pool, sd, sup⟩ := s
  simp only at hrec hsd ht hcap hne hfail
  subst hrec hsd hcap
  simp only [runLoop, processEvent, ht, stop_recording, finalize_recording, hne, hfail,
    Bool.false_eq_true, if_false, if_true, List.nil_append, Option.toList]

/-- Witness for the amended C1 at a concrete mid-recording state. -/
theorem toggle_off_transcription_failure_witness :
    runLoop demoConfig failingFactory failingRecordingState
        [.message (.toggle none), .message .status] =
      ⟨.fail "boom", [.errorEvent "boom"], []⟩ :=
  toggle_off_transcription_failure demoConfig failingFactory failingRecordingState
    failingTranscriber [] [.message .status] "boom" rfl rfl rfl rfl (by decide) rfl

/-- C2: a `stop` command received while recording sets the shutdown flag,
and before the loop exits the in-flight utterance is finalized: the
remaining samples are drained (once in the same iteration, once in
`stop_recording`), transcribed, and `TranscriptFinal` followed by
`RecordingStopped` are emitted; the loop then ends cleanly with no further
input processed.  (A termination signal takes the identical path: it sets
the same flag that the second iteration observes.) -/
theorem stop_while_recording_finalizes (cfg : DaemonConfig)
    (factory : TranscriberFactory) (s : LoopState) (t : Transcriber)
    (sched : CaptureSchedule) (rest : List LoopInput) (text : String)
    (hrec : s.recording = true) (hsd : s.shutdown = false)
    (ht : s.pool.transcriberFor s.activeLanguage = some t)
    (hcap : s.capture = some sched)
    (hne : (trim_trailing_silence
        (s.buffer ++ (drainOnce sched).1 ++ (drainOnce (drainOnce sched).2).1)
        cfg.sampleRate cfg.vad).isEmpty = false)
    (hok : t (trim_trailing_silence
        (s.buffer ++ (drainOnce sched).1 ++ (drainOnce (drainOnce sched).2).1)
        cfg.sampleRate cfg.vad) (some s.activeLanguage) = .ok text) :
    runLoop cfg factory s (.message .stop :: rest) =
      ⟨.ok,
        [.transcriptFinal s.activeLanguage (s.utteranceIndex + 1)
            (samples_to_ms
              (trim_trailing_silence
                (s.buffer ++ (drainOnce sched).1 ++ (drainOnce (drainOnce sched).2).1)
                cfg.sampleRate cfg.vad).length cfg.sampleRate) text,
          .recordingStopped s.activeLanguage],
        [control_ok_response "recording" s.activeLanguage]⟩ := by
  obtain ⟨rec, lang, buf, idx, cap, pool, sd, sup⟩ := s
  simp only at hrec hsd ht hcap hne hok
  subst hrec hsd hcap
  simp only [List.append_assoc] at hne hok
  simp only [runLoop, processEvent, drainStep, runLoop_shutdown, shutdownFinalize,
    stop_recording, finalize_recording, ht, hne, hok, Bool.false_eq_true, if_false, if_true,
    List.append_assoc, List.nil_append, List.cons_append]

/-- Witness for C2 at a concrete mid-recording state. -/
theorem stop_while_recording_finalizes_witness :
    runLoop demoConfig helloFactory helloRecordingState [.message .stop] =
      ⟨.ok,
        [.transcriptFinal "en" 1
            (samples_to_ms
              (trim_trailing_silence
                (([1] : List ℚ) ++ (drainOnce []).1 ++ (drainOnce (drainOnce []).2).1)
                demoConfig.sampleRate demoConfig.vad).length demoConfig.sampleRate) "hello",
          .recordingStopped "en"],
        [control_ok_response "recording" "en"]⟩ :=
  stop_while_recording_finalizes demoConfig helloFactory helloRecordingState
    helloTranscriber [] [] "hello" rfl rfl rfl rfl (by decide) rfl

/-- C3 (counterexample): the `ModelLoaded` event is not gated on a fresh
load.  `toggle lang=en` when `en` is already in the pool (so
`ensure_language` reports `false`, no fresh load) still emits a
`ModelLoaded` event for `en`. -/
theorem model_loaded_emitted_without_fresh_load :
    (helloStart.pool.get? "en").isSome = true ∧
      (ensure_language helloStart.pool "en" demoConfig helloFactory).map Prod.fst =
        .ok false ∧
      runLoop demoConfig helloFactory helloStart [.message (.toggle (some "en"))] =
        ⟨.outOfInput, [.modelLoaded "en" "small" "en", .recordingStarted "en"],
          [control_ok_response "recording" "en"]⟩ :=
  ⟨rfl, rfl, by decide⟩

/-- C3 (amended): every successfully processed `toggle lang=L` emits a
`ModelLoaded` event for `normalize L` with the pooled entry's metadata —
whether or not a fresh load occurred (the fresh-load flag returned by
`ensure_language` is not consulted) — and when the daemon was idle exactly
one `ModelLoaded` is emitted by that message, ordered immediately before
the `RecordingStarted` event. -/
theorem toggle_with_language_emits_model_loaded (cfg : DaemonConfig)
    (factory : TranscriberFactory) (s : LoopState) (l : String) (rest : List LoopInput)
    (fresh : Bool) (pool' : ModelPool) (entry : ModelPoolEntry)
    (sched : CaptureSchedule) (supplyRest : List (Except String CaptureSchedule))
    (hsd : s.shutdown = false) (hrec : s.recording = false)
    (hens : ensure_language s.pool (normalize_language l) cfg factory = .ok (fresh, pool'))
    (hmeta : pool'.get? (normalize_language l) = some entry)
    (hsupply : s.captureSupply = .ok sched :: supplyRest) :
    runLoop cfg factory s (.message (.toggle (some l)) :: rest) =
      (let r := runLoop cfg factory
          (drainStep { s with
            pool := pool'
            activeLanguage := normalize_language l
            recording := true
            buffer := []
            capture := some sched
            captureSupply := supplyRest }) rest
       ⟨r.outcome,
         .modelLoaded (normalize_language l) entry.modelSize entry.modelLanguage ::
           .recordingStarted (normalize_language l) :: r.events,
         control_ok_response "recording" (normalize_language l) :: r.responses⟩) := by
  obtain ⟨rec, lang, buf, idx, cap, pool, sd, sup⟩ := s
  simp only at hsd hrec hens hsupply
  subst hsd hrec hsupply
  simp only [runLoop, processEvent, hens, model_loaded_events, ModelPool.metadataFor, hmeta,
    Option.map_some, Option.map_some', Bool.false_eq_true, if_false, if_true,
    List.cons_append, List.nil_append]

/-- Witness for the amended C3: `toggle lang=fr` when `fr` was never
preloaded emits exactly one `ModelLoaded` for `fr` (metadata
`small`/`auto`), ordered before `RecordingStarted`. -/
theorem toggle_with_language_emits_model_loaded_witness :
    runLoop demoConfig helloFactory helloStart [.message (.toggle (some "fr"))] =
      ⟨.outOfInput, [.modelLoaded "fr" "small" "auto", .recordingStarted "fr"],
        [control_ok_response "recording" "fr"]⟩ :=
  toggle_with_language_emits_model_loaded demoConfig helloFactory helloStart "fr" []
    true (("fr", ⟨helloTranscriber, "small", "auto"⟩) :: helloPool)
    ⟨helloTranscriber, "small", "auto"⟩ [[1]] []
    rfl rfl rfl rfl rfl

/-- C6: processing `set-language lang=X` and then `status` answers both
with `ok` responses whose language field is `normalize X`, and whose state
label reflects the recording state from before the `set-language` —
switching the language does not change the recording state. -/
theorem set_language_then_status_reports (cfg : DaemonConfig)
    (factory : TranscriberFactory) (s : LoopState) (X : String) (rest : List LoopInput)
    (fresh : Bool) (pool' : ModelPool)
    (hsd : s.shutdown = false)
    (hens : ensure_language s.pool (normalize_language X) cfg factory = .ok (fresh, pool')) :
    (runLoop cfg factory s
        (.message (.setLanguage X) :: .message .status :: rest)).responses.take 2 =
      [control_ok_response (if s.recording then "recording" else "idle")
          (normalize_language X),
        control_ok_response (if s.recording then "recording" else "idle")
          (normalize_language X)] := by
  obtain ⟨rec, lang, buf, idx, cap, pool, sd, sup⟩ := s
  simp only at hsd hens
  subst hsd
  cases rec with
  | false =>
    simp [runLoop, processEvent, drainStep, hens]
  | true =>
    cases cap with
    | none => simp [runLoop, processEvent, drainStep, hens]
    | some sched => simp [runLoop, processEvent, drainStep, hens]

/-- Witness for C6: `set-language lang="SV "` then `status` reports
language `sv` (trimmed and lower-cased) with the daemon still idle. -/
theorem set_language_then_status_reports_witness :
    (runLoop demoConfig helloFactory (initState demoConfig helloPool [])
        [.message (.setLanguage "SV "), .message .status]).responses.take 2 =
      [control_ok_response "idle" "sv", control_ok_response "idle" "sv"] :=
  set_language_then_status_reports demoConfig helloFactory
    (initState demoConfig helloPool []) "SV " [] true
    (("sv", ⟨helloTranscriber, "small", "auto"⟩) :: helloPool) rfl rfl

end Soundvibes
